import Mathlib

/-
Verification of the interactive-session layer of the gemini-cli repository:
the PTY adapter (createPtyAdapter / createBunPtyAdapter and the PtyInstance
wrapper it returns) and the relaunch supervisor (relaunchOnExitCode and
relaunchAppInChildProcess in packages/cli/src/utils/relaunch.ts).

The definitions below are a shallow embedding of the TypeScript source:
JavaScript values appearing in environment records are modelled by an
explicit inductive type, environment objects by association lists with
unique keys (as produced by Object.entries), asynchronous runners by the
list of results of their successive invocations, and the observable side
effects of the supervisor (stdin pause and resume, child spawns, stderr
writes) by an explicit event trace.
-/

namespace GeminiCli

/-- A JavaScript value as it can appear in an environment record handed to
the PTY adapter (options.env has TypeScript type Record of string to string,
but undefined and null values occur at runtime and are filtered out). -/
inductive JsVal where
  | undef
  | nullV
  | str (s : String)
  | num (n : Int)
  | boolV (b : Bool)
deriving Repr, DecidableEq

/-- JavaScript string coercion, the String(value) call at
esbuild.config.js line 229 (numbers are modelled as integers). -/
def jsString : JsVal → String
  | JsVal.undef => "undefined"
  | JsVal.nullV => "null"
  | JsVal.str s => s
  | JsVal.num n => toString n
  | JsVal.boolV b => if b then "true" else "false"

/-- Environment sanitization in createBunPtyAdapter.spawn
(esbuild.config.js lines 225-232): iterate over the entries of options.env,
drop every entry whose value is undefined or null, and coerce the remaining
values with String(value).  The input list models Object.entries of the
record, so its keys are pairwise distinct. -/
def cleanEnv (env : List (String × JsVal)) : List (String × String) :=
  env.filterMap fun p =>
    if p.2 = JsVal.undef ∨ p.2 = JsVal.nullV then none
    else some (p.1, jsString p.2)

/-- Options accepted by PtyAdapter.spawn (esbuild.config.js lines 176-193).
Every field is optional in the TypeScript interface. -/
structure PtySpawnOptions where
  name : Option String := none
  cols : Option Int := none
  rows : Option Int := none
  cwd : Option String := none
  env : Option (List (String × JsVal)) := none
  handleFlowControl : Option Bool := none
deriving Repr, DecidableEq

/-- A value appearing in the options object literal passed to the
underlying bun-pty spawn call. -/
inductive BunOptVal where
  | str (s : String)
  | num (n : Int)
  | undef
  | envMap (e : List (String × String))
deriving Repr, DecidableEq

/-- The options object literal handed to the underlying bun-pty spawn call
(esbuild.config.js lines 234-240): exactly the keys name, cols, rows, cwd
and env, with the defaults of the ?? operators applied, cwd passed through
(undefined when absent) and env the sanitized environment. -/
def bunPtySpawnCallOptions (options : PtySpawnOptions) :
    List (String × BunOptVal) :=
  [ ("name", BunOptVal.str (options.name.getD "xterm-256color")),
    ("cols", BunOptVal.num (options.cols.getD 80)),
    ("rows", BunOptVal.num (options.rows.getD 24)),
    ("cwd", match options.cwd with
            | some c => BunOptVal.str c
            | none => BunOptVal.undef),
    ("env", BunOptVal.envMap (cleanEnv (options.env.getD []))) ]

/-- The exit event delivered to callbacks registered through
PtyInstance.onExit: an exit code and an optional termination signal
number. -/
structure ExitEvent where
  exitCode : Int
  signal : Option Int := none
deriving Repr, DecidableEq

/-- The argument the adapter passes to a callback registered through
onExit, as a function of the exit event produced by the underlying bun-pty
instance (esbuild.config.js lines 249-253): the wrapper destructures only
exitCode from the underlying event and calls the callback with an object
holding exitCode alone, so the signal field of the delivered event is
always absent. -/
def onExitCallbackArg (e : ExitEvent) : ExitEvent :=
  { exitCode := e.exitCode }

/-- A call made by the PtyInstance wrapper on the underlying bun-pty
instance. -/
inductive BunPtyCall where
  | write (data : String)
  | kill (signal : Option String)
  | resize (cols : Int) (rows : Int)
deriving Repr, DecidableEq

/-- The write method of the returned PtyInstance
(esbuild.config.js lines 254-256): forwards the data unchanged. -/
def wrappedWrite (data : String) : BunPtyCall :=
  BunPtyCall.write data

/-- The kill method of the returned PtyInstance
(esbuild.config.js lines 257-259): declared without a parameter, it calls
the underlying kill with no argument, so whatever signal the caller of
PtyInstance.kill supplies is never forwarded. -/
def wrappedKill (_signal : Option String) : BunPtyCall :=
  BunPtyCall.kill none

/-- The resize method of the returned PtyInstance
(esbuild.config.js lines 260-262): forwards both dimensions unchanged. -/
def wrappedResize (cols : Int) (rows : Int) : BunPtyCall :=
  BunPtyCall.resize cols rows

/-- The adapter object returned by createBunPtyAdapter; only its backend
tag is relevant to the selector. -/
structure PtyAdapter where
  backend : String
deriving Repr, DecidableEq

/-- A diagnostic entry produced through debugLogger.debug: the message and
the attached error rendered as a string. -/
structure DebugEntry where
  message : String
  attached : String
deriving Repr, DecidableEq

/-- createPtyAdapter (esbuild.config.js lines 276-293).  The runtime
identity check (typeof Bun !== undefined) is the isBun argument; the
possibly failing construction by createBunPtyAdapter (its dynamic import
of bun-pty can throw) is the construct argument.  The outer Except
models exceptions escaping to the caller: the body returns ok in every
case because the non-Bun branch returns null directly and the try/catch
converts a construction failure into a debug entry plus null. -/
def createPtyAdapter (isBun : Bool) (construct : Except String PtyAdapter) :
    Except String (Option PtyAdapter × List DebugEntry) :=
  if !isBun then
    Except.ok (none, [])
  else
    match construct with
    | Except.ok adapter => Except.ok (some adapter, [])
    | Except.error e =>
        Except.ok (none, [⟨"Failed to create bun-pty adapter:", e⟩])

/-- Result of one invocation of a relaunch runner: the exit code its
promise resolved with, or the message of the error it rejected with. -/
inductive RunnerResult where
  | ok (code : Int)
  | err (msg : String)
deriving Repr, DecidableEq

/-- An observable side effect of the relaunch supervisor, in program
order: pausing or resuming the parent standard input, spawning a child
process with given arguments and environment, or writing to stderr. -/
inductive Event where
  | stdinPause
  | stdinResume
  | spawnChild (args : List String) (env : List (String × String))
  | stderrWrite (msg : String)
deriving Repr, DecidableEq

/-- Outcome of a terminated relaunch loop: the events emitted before the
process exited, the number of runner invocations performed, and the code
the whole process exited with. -/
structure LoopResult where
  trace : List Event
  invocations : Nat
  exitCode : Int
deriving Repr, DecidableEq

/-- relaunchOnExitCode (relaunch.ts lines 86-103): loop forever; each
iteration awaits the runner; a resolved code different from the sentinel
RELAUNCH_EXIT_CODE exits the whole process with that code; the sentinel
continues the loop; a rejection resumes stdin, writes a fatal message to
stderr and exits with code 1.  The runner is modelled by the list of the
event trace and result of its successive invocations; none means the loop
was still running when the supplied invocations were exhausted (it never
returns by itself). -/
def relaunchOnExitCode (sentinel : Int) :
    List (List Event × RunnerResult) → Option LoopResult
  | [] => none
  | (evs, RunnerResult.ok code) :: rest =>
      if code = sentinel then
        (relaunchOnExitCode sentinel rest).map fun r =>
          ⟨evs ++ r.trace, r.invocations + 1, r.exitCode⟩
      else
        some ⟨evs, 1, code⟩
  | (evs, RunnerResult.err msg) :: _ =>
      some ⟨evs ++ [Event.stdinResume,
        Event.stderrWrite
          ("Fatal error: Failed to relaunch the CLI process.\n"
            ++ msg ++ "\n")], 1, 1⟩

/-- How one child process spawned by the runner terminates: a close event
with a possibly null exit code, or an error event carrying a message. -/
inductive ChildOutcome where
  | closed (code : Option Int)
  | errored (msg : String)
deriving Repr, DecidableEq

/-- The relevant process-global state read by relaunchAppInChildProcess:
process.argv, process.env and process.execPath. -/
structure ProcState where
  argv : List String
  env : List (String × String)
  execPath : String
deriving Repr, DecidableEq

/-- Object spread with override, the new-env construction at relaunch.ts
line 131: all entries of env are kept except the overridden key, which is
bound to v (lookup-equivalent to the JavaScript spread, which keeps the
key at its original position). -/
def envSet (env : List (String × String)) (k v : String) :
    List (String × String) :=
  env.filter (fun p => p.1 != k) ++ [(k, v)]

/-- JavaScript truthiness of a process.env lookup: undefined and the empty
string are falsy, every other string is truthy. -/
def envTruthy : Option String → Bool
  | none => false
  | some s => s != ""

/-- Character-list recursion deciding whether the first list leads the
second, used to model the JavaScript String startsWith test. -/
def strLeads : List Char → List Char → Bool
  | [], _ => true
  | _ :: _, [] => false
  | c :: cs, d :: ds => (c == d) && strLeads cs ds

/-- The JavaScript String startsWith test: the search string leads the
receiver. -/
def jsStartsWith (s pat : String) : Bool :=
  strLeads pat.data s.data

/-- The compiled-binary detection of relaunch.ts lines 113-118: the
optional-chained startsWith tests on process.argv[1] for the Unix bundled
filesystem marker and the Windows one. -/
def isCompiledBinary (st : ProcState) : Bool :=
  ((st.argv.get? 1).map (fun s => jsStartsWith s "/$bunfs/")).getD false
  || ((st.argv.get? 1).map (fun s => jsStartsWith s "B:/~BUN/")).getD false

/-- Argument list of the spawned child (relaunch.ts lines 124-130):
additionalBunArgs, then the script path process.argv[1], then
additionalScriptArgs, then process.argv.slice(2). -/
def childSpawnArgs (additionalBunArgs additionalScriptArgs : List String)
    (st : ProcState) : List String :=
  additionalBunArgs ++ [(st.argv.get? 1).getD ""] ++ additionalScriptArgs
    ++ st.argv.drop 2

/-- Environment of the spawned child (relaunch.ts line 131): the parent
environment with GEMINI_CLI_NO_RELAUNCH overridden to the string true. -/
def childSpawnEnv (st : ProcState) : List (String × String) :=
  envSet st.env "GEMINI_CLI_NO_RELAUNCH" "true"

/-- One invocation of the runner closure built by
relaunchAppInChildProcess (relaunch.ts lines 123-145), as a function of
how the spawned child terminates: pause stdin, spawn the child; on the
close event resume stdin and resolve with the code, substituting 1 for a
null code (code ?? 1); on the error event reject with the error. -/
def runnerInvocation (additionalBunArgs additionalScriptArgs : List String)
    (st : ProcState) (outcome : ChildOutcome) :
    List Event × RunnerResult :=
  let args := childSpawnArgs additionalBunArgs additionalScriptArgs st
  let newEnv := childSpawnEnv st
  match outcome with
  | ChildOutcome.closed code =>
      ([Event.stdinPause, Event.spawnChild args newEnv, Event.stdinResume],
        RunnerResult.ok (code.getD 1))
  | ChildOutcome.errored msg =>
      ([Event.stdinPause, Event.spawnChild args newEnv],
        RunnerResult.err msg)

/-- Overall outcome of relaunchAppInChildProcess: the function returned to
its caller without spawning anything (the no-relaunch marker or the
compiled-binary short circuit), or the relaunch loop exited the whole
process, or the supplied child outcomes were exhausted while the loop was
still running. -/
inductive RelaunchResult where
  | returned
  | exited (r : LoopResult)
  | outOfOutcomes
deriving Repr, DecidableEq

/-- relaunchAppInChildProcess (relaunch.ts lines 105-146): return
immediately when process.env GEMINI_CLI_NO_RELAUNCH is truthy; return
immediately when process.argv[1] carries a compiled-binary marker;
otherwise run relaunchOnExitCode over the runner, whose successive
invocations are determined by the successive child outcomes. -/
def relaunchAppInChildProcess (sentinel : Int)
    (additionalBunArgs additionalScriptArgs : List String)
    (st : ProcState) (outcomes : List ChildOutcome) : RelaunchResult :=
  if envTruthy (st.env.lookup "GEMINI_CLI_NO_RELAUNCH") then
    RelaunchResult.returned
  else if isCompiledBinary st then
    RelaunchResult.returned
  else
    match relaunchOnExitCode sentinel
        (outcomes.map
          (runnerInvocation additionalBunArgs additionalScriptArgs st)) with
    | none => RelaunchResult.outOfOutcomes
    | some r => RelaunchResult.exited r

/-- Event.spawnChild recognizer variant on all constructors, used to count
spawns in a trace. -/
def Event.isSpawnChild : Event → Bool
  | Event.stdinPause => false
  | Event.stdinResume => false
  | Event.spawnChild _ _ => true
  | Event.stderrWrite _ => false

/-- Event.stdinResume recognizer, used to count resumes in a trace. -/
def Event.isResume : Event → Bool
  | Event.stdinPause => false
  | Event.stdinResume => true
  | Event.spawnChild _ _ => false
  | Event.stderrWrite _ => false

/-- Event.stdinPause recognizer, used to count pauses in a trace. -/
def Event.isPause : Event → Bool
  | Event.stdinPause => true
  | Event.stdinResume => false
  | Event.spawnChild _ _ => false
  | Event.stderrWrite _ => false

/-- Looking up the overridden key of envSet yields the overriding value,
matching the JavaScript spread-with-override semantics. -/
lemma envSet_lookup (env : List (String × String)) (k v : String) :
    (envSet env k v).lookup k = some v := by
  unfold envSet
  induction env with
  | nil => simp [List.lookup]
  | cons p tl ih =>
      obtain ⟨a, b⟩ := p
      by_cases hp : a = k
      · simpa [List.filter_cons, hp] using ih
      · have hk : (k == a) = false := by simp [Ne.symm hp]
        have hf : (a != k) = true := by simp [hp]
        simpa [List.filter_cons, hf, List.lookup, hk] using ih

/-- In a list of pairs with pairwise distinct keys, a key determines its
value. -/
lemma nodupKeysValueEq {α β : Type} (l : List (α × β))
    (h : (l.map Prod.fst).Nodup) :
    ∀ a b1 b2, (a, b1) ∈ l → (a, b2) ∈ l → b1 = b2 := by
  induction l with
  | nil => intro a b1 b2 h1; cases h1
  | cons p tl ih =>
      intro a b1 b2 h1 h2
      simp only [List.map_cons, List.nodup_cons] at h
      obtain ⟨hp, htl⟩ := h
      rcases List.mem_cons.mp h1 with e1 | m1
      · rcases List.mem_cons.mp h2 with e2 | m2
        · rw [← e2] at e1
          exact (Prod.ext_iff.mp e1).2
        · exfalso
          have ha : a ∈ tl.map Prod.fst := List.mem_map_of_mem Prod.fst m2
          rw [← e1] at hp
          exact hp ha
      · rcases List.mem_cons.mp h2 with e2 | m2
        · exfalso
          have ha : a ∈ tl.map Prod.fst := List.mem_map_of_mem Prod.fst m1
          rw [← e2] at hp
          exact hp ha
        · exact ih htl a b1 b2 m1 m2

/-- The keys of the sanitized environment form a sublist of the original
keys (sanitization only drops entries, preserving each kept key). -/
lemma cleanEnv_keys_sublist (env : List (String × JsVal)) :
    ((cleanEnv env).map Prod.fst).Sublist (env.map Prod.fst) := by
  induction env with
  | nil => simp [cleanEnv]
  | cons p tl ih =>
      simp only [cleanEnv, List.filterMap_cons] at ih ⊢
      by_cases hv : p.2 = JsVal.undef ∨ p.2 = JsVal.nullV
      · rw [if_pos hv]
        exact ih.cons _
      · rw [if_neg hv]
        simpa using ih.cons₂ p.1

/-- In every terminating run of the relaunch loop over a runner built by
relaunchAppInChildProcess, the numbers of child spawns, stdin pauses and
stdin resumes in the trace all equal the number of runner invocations. -/
lemma loopCounts (sentinel : Int) (aB aS : List String) (st : ProcState) :
    ∀ (outcomes : List ChildOutcome) (r : LoopResult),
      relaunchOnExitCode sentinel
          (outcomes.map (runnerInvocation aB aS st)) = some r →
      r.trace.countP Event.isSpawnChild = r.invocations
      ∧ r.trace.countP Event.isResume = r.invocations
      ∧ r.trace.countP Event.isPause = r.invocations := by
  intro outcomes
  induction outcomes with
  | nil => intro r h; simp [relaunchOnExitCode] at h
  | cons o tl ih =>
      intro r h
      cases o with
      | closed code =>
          simp only [List.map_cons, runnerInvocation, relaunchOnExitCode] at h
          by_cases hc : code.getD 1 = sentinel
          · rw [if_pos hc] at h
            cases hrec : relaunchOnExitCode sentinel
                (tl.map (runnerInvocation aB aS st)) with
            | none => rw [hrec] at h; exact Option.noConfusion h
            | some r0 =>
                rw [hrec] at h
                simp only [Option.map_some', Option.some.injEq] at h
                obtain ⟨h1, h2, h3⟩ := ih r0 hrec
                subst h
                simp [List.countP_cons, List.countP_append,
                  Event.isSpawnChild, Event.isResume, Event.isPause,
                  h1, h2, h3]
          · rw [if_neg hc] at h
            simp only [Option.some.injEq] at h
            subst h
            simp [List.countP_cons, Event.isSpawnChild, Event.isResume,
              Event.isPause]
      | errored msg =>
          simp only [List.map_cons, runnerInvocation, relaunchOnExitCode,
            Option.some.injEq] at h
          subst h
          simp [List.countP_cons, List.countP_append,
            Event.isSpawnChild, Event.isResume, Event.isPause]

/-- Every child spawned in a run of the relaunch loop over a runner built
by relaunchAppInChildProcess receives an environment in which
GEMINI_CLI_NO_RELAUNCH is bound to the string true. -/
lemma loopSpawnEnvMarker (sentinel : Int) (aB aS : List String)
    (st : ProcState) :
    ∀ (outcomes : List ChildOutcome) (r : LoopResult),
      relaunchOnExitCode sentinel
          (outcomes.map (runnerInvocation aB aS st)) = some r →
      ∀ args cenv, Event.spawnChild args cenv ∈ r.trace →
        cenv.lookup "GEMINI_CLI_NO_RELAUNCH" = some "true" := by
  intro outcomes
  induction outcomes with
  | nil => intro r h; simp [relaunchOnExitCode] at h
  | cons o tl ih =>
      intro r h args cenv hmem
      cases o with
      | closed code =>
          simp only [List.map_cons, runnerInvocation, relaunchOnExitCode] at h
          by_cases hc : code.getD 1 = sentinel
          · rw [if_pos hc] at h
            cases hrec : relaunchOnExitCode sentinel
                (tl.map (runnerInvocation aB aS st)) with
            | none => rw [hrec] at h; exact Option.noConfusion h
            | some r0 =>
                rw [hrec] at h
                simp only [Option.map_some', Option.some.injEq] at h
                subst h
                simp only [List.mem_append, List.mem_cons,
                  List.not_mem_nil, or_false] at hmem
                rcases hmem with (hmem | hmem | hmem) | hmem
                · exact Event.noConfusion hmem
                · have he : cenv = childSpawnEnv st :=
                    (Event.spawnChild.inj hmem).2
                  exact he ▸ envSet_lookup st.env _ _
                · exact Event.noConfusion hmem
                · exact ih r0 hrec args cenv hmem
          · rw [if_neg hc] at h
            simp only [Option.some.injEq] at h
            subst h
            simp only [List.mem_cons, List.not_mem_nil, or_false] at hmem
            rcases hmem with hmem | hmem | hmem
            · exact Event.noConfusion hmem
            · have he : cenv = childSpawnEnv st :=
                (Event.spawnChild.inj hmem).2
              exact he ▸ envSet_lookup st.env _ _
            · exact Event.noConfusion hmem
      | errored msg =>
          simp only [List.map_cons, runnerInvocation, relaunchOnExitCode,
            Option.some.injEq] at h
          subst h
          simp only [List.mem_append, List.mem_cons,
            List.not_mem_nil, or_false] at hmem
          rcases hmem with (hmem | hmem) | hmem | hmem
          · exact Event.noConfusion hmem
          · have he : cenv = childSpawnEnv st :=
              (Event.spawnChild.inj hmem).2
            exact he ▸ envSet_lookup st.env _ _
          · exact Event.noConfusion hmem
          · exact Event.noConfusion hmem

/-- Unfolding equation of relaunchOnExitCode for an empty invocation
list. -/
lemma relaunchOnExitCode_nil (sentinel : Int) :
    relaunchOnExitCode sentinel [] = none := rfl

/-- Unfolding equation of relaunchOnExitCode for an invocation whose
runner resolved with a code. -/
lemma relaunchOnExitCode_cons_ok (sentinel code : Int) (evs : List Event)
    (rest : List (List Event × RunnerResult)) :
    relaunchOnExitCode sentinel ((evs, RunnerResult.ok code) :: rest)
      = if code = sentinel then
          (relaunchOnExitCode sentinel rest).map fun r =>
            ⟨evs ++ r.trace, r.invocations + 1, r.exitCode⟩
        else some ⟨evs, 1, code⟩ := rfl

/-- C1: for every runner whose successive invocations return the sentinel
relaunch exit code exactly K times and then a non-sentinel code C (here K
is the length of pre, the list of the sentinel-returning invocations),
relaunchOnExitCode consumes exactly K+1 invocations and terminates the
whole process with exit code C; and on the sentinel-returning invocations
alone it does not terminate. -/
theorem relaunch_loop_sentinel_protocol (sentinel C : Int)
    (hC : C ≠ sentinel)
    (pre : List (List Event × RunnerResult))
    (hpre : ∀ p ∈ pre, p.2 = RunnerResult.ok sentinel)
    (evs : List Event) (rest : List (List Event × RunnerResult)) :
    relaunchOnExitCode sentinel (pre ++ (evs, RunnerResult.ok C) :: rest)
      = some ⟨(pre.map Prod.fst).flatten ++ evs, pre.length + 1, C⟩
    ∧ relaunchOnExitCode sentinel pre = none := by
  induction pre with
  | nil =>
      refine ⟨?_, rfl⟩
      simp [relaunchOnExitCode_cons_ok, hC]
  | cons p tl ih =>
      obtain ⟨pevs, pres⟩ := p
      have hp : pres = RunnerResult.ok sentinel :=
        hpre (pevs, pres) (List.mem_cons_self _ _)
      subst hp
      obtain ⟨ih1, ihnone⟩ :=
        ih (fun q hq => hpre q (List.mem_cons_of_mem _ hq))
      constructor
      · rw [List.cons_append, relaunchOnExitCode_cons_ok, if_pos rfl, ih1,
          Option.map_some']
        simp [List.append_assoc]
      · rw [relaunchOnExitCode_cons_ok, if_pos rfl, ihnone, Option.map_none']

/-- Witness for C1 at a concrete runner: sentinel 42 returned twice, then
code 0; the loop performs three invocations and exits with 0, and it does
not terminate on the two sentinel invocations alone. -/
theorem relaunch_loop_sentinel_protocol_witness :
    relaunchOnExitCode 42 [([], RunnerResult.ok 42), ([], RunnerResult.ok 42),
        ([], RunnerResult.ok 0)]
      = some ⟨[], 3, 0⟩
    ∧ relaunchOnExitCode 42 [([], RunnerResult.ok 42),
        ([], RunnerResult.ok 42)] = none := by
  have h := relaunch_loop_sentinel_protocol 42 0 (by decide)
    [([], RunnerResult.ok 42), ([], RunnerResult.ok 42)] (by decide) [] []
  simpa using h

/-- C10: when the spawned child closes with a null exit code, the runner
built by relaunchAppInChildProcess resolves with exit code 1 (code ?? 1),
so when 1 is not the sentinel relaunch code the relaunch loop exits the
whole process with code 1 after that single invocation. -/
theorem relaunch_null_close_exits_one (sentinel : Int) (h1 : sentinel ≠ 1)
    (aB aS : List String) (st : ProcState)
    (hEnv : envTruthy (st.env.lookup "GEMINI_CLI_NO_RELAUNCH") = false)
    (hBin : isCompiledBinary st = false) :
    (runnerInvocation aB aS st (ChildOutcome.closed none)).2
      = RunnerResult.ok 1
    ∧ relaunchAppInChildProcess sentinel aB aS st [ChildOutcome.closed none]
      = RelaunchResult.exited
          ⟨(runnerInvocation aB aS st (ChildOutcome.closed none)).1, 1, 1⟩ := by
  refine ⟨rfl, ?_⟩
  have hne : ¬((1 : Int) = sentinel) := fun h => h1 h.symm
  simp [relaunchAppInChildProcess, hEnv, hBin, runnerInvocation,
    relaunchOnExitCode_cons_ok, hne]

/-- Witness for C10 at a concrete state: sentinel 42, a development argv,
an empty environment, and a child that closes with a null code; the
process exits with code 1 after one spawn. -/
theorem relaunch_null_close_exits_one_witness :
    relaunchAppInChildProcess 42 [] [] ⟨["bun", "app.js"], [], "bun"⟩
        [ChildOutcome.closed none]
      = RelaunchResult.exited
          ⟨[Event.stdinPause,
            Event.spawnChild ["app.js"] [("GEMINI_CLI_NO_RELAUNCH", "true")],
            Event.stdinResume], 1, 1⟩ := by
  have h := relaunch_null_close_exits_one 42 (by decide) [] []
    ⟨["bun", "app.js"], [], "bun"⟩ (by decide) (by decide)
  simpa [runnerInvocation, childSpawnArgs, childSpawnEnv, envSet] using h.2

/-- When relaunchAppInChildProcess reports that the process exited, the
run was produced by the relaunch loop over the runner it built (neither
early return fired). -/
lemma relaunchApp_exited_loop (sentinel : Int) (aB aS : List String)
    (st : ProcState) (outcomes : List ChildOutcome) (r : LoopResult)
    (h : relaunchAppInChildProcess sentinel aB aS st outcomes
          = RelaunchResult.exited r) :
    relaunchOnExitCode sentinel
      (outcomes.map (runnerInvocation aB aS st)) = some r := by
  by_cases h1 : envTruthy (st.env.lookup "GEMINI_CLI_NO_RELAUNCH") = true
  · simp [relaunchAppInChildProcess, h1] at h
  · by_cases h2 : isCompiledBinary st = true
    · simp [relaunchAppInChildProcess, h1, h2] at h
    · simp only [relaunchAppInChildProcess, h1, h2, if_false] at h
      cases hrec : relaunchOnExitCode sentinel
          (outcomes.map (runnerInvocation aB aS st)) with
      | none =>
          rw [hrec] at h
          exact RelaunchResult.noConfusion h
      | some r0 =>
          rw [hrec] at h
          rw [RelaunchResult.exited.inj h]

/-- C2: in every run of relaunchAppInChildProcess that terminates the
process, the trace contains exactly one stdin resume per spawned child
(every spawned child in the model terminates, via close with a code, close
with a null code, or an error) and exactly one stdin pause per spawned
child, and every runner invocation pauses stdin immediately before the
spawn.  All resumes counted in the trace occur before the process exit,
the error path included. -/
theorem relaunch_stdin_handoff (sentinel : Int) (aB aS : List String)
    (st : ProcState) (outcomes : List ChildOutcome) (r : LoopResult)
    (h : relaunchAppInChildProcess sentinel aB aS st outcomes
          = RelaunchResult.exited r) :
    r.trace.countP Event.isSpawnChild = r.invocations
    ∧ r.trace.countP Event.isResume = r.invocations
    ∧ r.trace.countP Event.isPause = r.invocations
    ∧ ∀ o, ∃ tail,
        (runnerInvocation aB aS st o).1
          = Event.stdinPause
            :: Event.spawnChild (childSpawnArgs aB aS st) (childSpawnEnv st)
            :: tail := by
  obtain ⟨h1, h2, h3⟩ :=
    loopCounts sentinel aB aS st outcomes r
      (relaunchApp_exited_loop sentinel aB aS st outcomes r h)
  refine ⟨h1, h2, h3, ?_⟩
  intro o
  cases o with
  | closed code => exact ⟨[Event.stdinResume], rfl⟩
  | errored msg => exact ⟨[], rfl⟩

/-- Witness for C2 at a concrete run: one child that closes with code 0;
the trace holds exactly one resume. -/
theorem relaunch_stdin_handoff_witness :
    ([Event.stdinPause,
      Event.spawnChild ["app.js"] [("GEMINI_CLI_NO_RELAUNCH", "true")],
      Event.stdinResume] : List Event).countP Event.isResume = 1 := by
  have h := relaunch_stdin_handoff 42 [] [] ⟨["bun", "app.js"], [], "bun"⟩
    [ChildOutcome.closed (some 0)]
    ⟨[Event.stdinPause,
      Event.spawnChild ["app.js"] [("GEMINI_CLI_NO_RELAUNCH", "true")],
      Event.stdinResume], 1, 0⟩ rfl
  exact h.2.1

/-- C4: whenever process.argv[1] starts with the bundled-filesystem marker
of a self-contained compiled binary (Unix or Windows form),
relaunchAppInChildProcess returns without spawning any child and without
entering the relaunch loop, whatever the other inputs are. -/
theorem relaunch_compiled_binary_inert (sentinel : Int)
    (aB aS : List String) (st : ProcState) (outcomes : List ChildOutcome)
    (h : ∃ s, st.argv.get? 1 = some s ∧
        (jsStartsWith s "/$bunfs/" = true ∨ jsStartsWith s "B:/~BUN/" = true)) :
    relaunchAppInChildProcess sentinel aB aS st outcomes
      = RelaunchResult.returned := by
  obtain ⟨s, hs, hmark⟩ := h
  have hbin : isCompiledBinary st = true := by
    unfold isCompiledBinary
    rw [hs]
    rcases hmark with h1 | h1 <;> simp [h1]
  by_cases h1 : envTruthy (st.env.lookup "GEMINI_CLI_NO_RELAUNCH") = true
  · simp [relaunchAppInChildProcess, h1]
  · simp [relaunchAppInChildProcess, h1, hbin]

/-- Witness for C4 at a concrete compiled-binary argv: the Unix marker on
process.argv[1] makes the whole function return with no spawn even though
a child outcome was available. -/
theorem relaunch_compiled_binary_inert_witness :
    relaunchAppInChildProcess 42 [] []
        ⟨["gemini", "/$bunfs/root/gemini.js"], [], "gemini"⟩
        [ChildOutcome.closed (some 0)]
      = RelaunchResult.returned :=
  relaunch_compiled_binary_inert 42 [] [] _ _
    ⟨"/$bunfs/root/gemini.js", rfl, Or.inl (by decide)⟩

/-- C6 counterexample: with GEMINI_CLI_NO_RELAUNCH present in the
environment but bound to the empty string, the marker is present at
process start, yet relaunchAppInChildProcess does not return immediately:
it enters the relaunch loop and spawns a child (the guard tests JavaScript
truthiness, and the empty string is falsy). -/
theorem relaunch_empty_marker_counterexample :
    (([("GEMINI_CLI_NO_RELAUNCH", "")] : List (String × String)).lookup
        "GEMINI_CLI_NO_RELAUNCH" = some "")
    ∧ relaunchAppInChildProcess 42 [] []
        ⟨["bun", "app.js"], [("GEMINI_CLI_NO_RELAUNCH", "")], "bun"⟩
        [ChildOutcome.closed (some 0)]
      = RelaunchResult.exited
          ⟨[Event.stdinPause,
            Event.spawnChild ["app.js"] [("GEMINI_CLI_NO_RELAUNCH", "true")],
            Event.stdinResume], 1, 0⟩ := by
  constructor <;> rfl

/-- C6 amended: when GEMINI_CLI_NO_RELAUNCH is present with a non-empty
(hence truthy) value at process start, relaunchAppInChildProcess returns
immediately without spawning any child and without entering the relaunch
loop; and every child it does spawn receives an environment in which that
marker is bound to the string true. -/
theorem relaunch_no_relaunch_env_guard :
    (∀ (sentinel : Int) (aB aS : List String) (st : ProcState)
        (outcomes : List ChildOutcome) (s : String),
        st.env.lookup "GEMINI_CLI_NO_RELAUNCH" = some s → s ≠ "" →
        relaunchAppInChildProcess sentinel aB aS st outcomes
          = RelaunchResult.returned)
    ∧ (∀ (sentinel : Int) (aB aS : List String) (st : ProcState)
        (outcomes : List ChildOutcome) (r : LoopResult)
        (args : List String) (cenv : List (String × String)),
        relaunchAppInChildProcess sentinel aB aS st outcomes
          = RelaunchResult.exited r →
        Event.spawnChild args cenv ∈ r.trace →
        cenv.lookup "GEMINI_CLI_NO_RELAUNCH" = some "true") := by
  constructor
  · intro sentinel aB aS st outcomes s hs hne
    have ht : envTruthy (st.env.lookup "GEMINI_CLI_NO_RELAUNCH") = true := by
      rw [hs]
      simp [envTruthy, hne]
    simp [relaunchAppInChildProcess, ht]
  · intro sentinel aB aS st outcomes r args cenv h hmem
    exact loopSpawnEnvMarker sentinel aB aS st outcomes r
      (relaunchApp_exited_loop sentinel aB aS st outcomes r h) args cenv hmem

/-- Witness for C6 at concrete inputs: a non-empty marker makes the
function return immediately, and the child spawned in a marker-free run
carries the marker bound to true. -/
theorem relaunch_no_relaunch_env_guard_witness :
    relaunchAppInChildProcess 42 [] []
        ⟨["bun", "app.js"], [("GEMINI_CLI_NO_RELAUNCH", "1")], "bun"⟩
        [ChildOutcome.closed (some 0)]
      = RelaunchResult.returned
    ∧ ([("GEMINI_CLI_NO_RELAUNCH", "true")] : List (String × String)).lookup
        "GEMINI_CLI_NO_RELAUNCH" = some "true" := by
  constructor
  · exact relaunch_no_relaunch_env_guard.1 42 [] []
      ⟨["bun", "app.js"], [("GEMINI_CLI_NO_RELAUNCH", "1")], "bun"⟩
      [ChildOutcome.closed (some 0)] "1" rfl (by decide)
  · exact relaunch_no_relaunch_env_guard.2 42 [] []
      ⟨["bun", "app.js"], [], "bun"⟩ [ChildOutcome.closed (some 0)]
      ⟨[Event.stdinPause,
        Event.spawnChild ["app.js"] [("GEMINI_CLI_NO_RELAUNCH", "true")],
        Event.stdinResume], 1, 0⟩
      ["app.js"] [("GEMINI_CLI_NO_RELAUNCH", "true")] rfl
      (by simp)

/-- C5: for every environment mapping with pairwise distinct keys (as
Object.entries of a record yields), the sanitized environment handed to
the bun-pty spawn call drops every entry whose value is undefined or null
(no entry with that key remains), keeps every other entry with its value
coerced to a string, and has pairwise distinct keys; its values are
strings by construction of cleanEnv. -/
theorem pty_env_sanitized (env : List (String × JsVal))
    (hnd : (env.map Prod.fst).Nodup) :
    (∀ k v, (k, v) ∈ env → (v = JsVal.undef ∨ v = JsVal.nullV) →
        ∀ w, (k, w) ∉ cleanEnv env)
    ∧ (∀ k v, (k, v) ∈ env → ¬(v = JsVal.undef ∨ v = JsVal.nullV) →
        (k, jsString v) ∈ cleanEnv env)
    ∧ ((cleanEnv env).map Prod.fst).Nodup := by
  refine ⟨?_, ?_, ?_⟩
  · intro k v hm hv w hw
    obtain ⟨⟨p1, p2⟩, hp, hfp⟩ := List.mem_filterMap.mp hw
    dsimp only at hfp
    by_cases hc : p2 = JsVal.undef ∨ p2 = JsVal.nullV
    · rw [if_pos hc] at hfp
      exact Option.noConfusion hfp
    · rw [if_neg hc] at hfp
      have hk : p1 = k := (Prod.ext_iff.mp (Option.some.inj hfp)).1
      have hpm : (k, p2) ∈ env := hk ▸ hp
      exact hc (nodupKeysValueEq env hnd k v p2 hm hpm ▸ hv)
  · intro k v hm hv
    exact List.mem_filterMap.mpr ⟨(k, v), hm, by dsimp only; rw [if_neg hv]⟩
  · exact List.Nodup.sublist (cleanEnv_keys_sublist env) hnd

/-- Witness for C5 at a concrete mapping holding an undefined value, a
null value and a number: the first two keys are dropped, the number is
coerced to the string 3, and the result keeps distinct keys. -/
theorem pty_env_sanitized_witness :
    ("A", "undefined") ∉ cleanEnv
        [("A", JsVal.undef), ("B", JsVal.nullV), ("C", JsVal.num 3)]
    ∧ ("C", "3") ∈ cleanEnv
        [("A", JsVal.undef), ("B", JsVal.nullV), ("C", JsVal.num 3)]
    ∧ ((cleanEnv [("A", JsVal.undef), ("B", JsVal.nullV),
        ("C", JsVal.num 3)]).map Prod.fst).Nodup := by
  have h := pty_env_sanitized
    [("A", JsVal.undef), ("B", JsVal.nullV), ("C", JsVal.num 3)] (by decide)
  exact ⟨h.1 "A" JsVal.undef (by decide) (Or.inl rfl) "undefined",
    h.2.1 "C" (JsVal.num 3) (by decide) (by decide), h.2.2⟩

/-- C3 counterexample: when the hosting runtime is not Bun, createPtyAdapter
returns the unavailable result with an empty diagnostic list, so the claim
that a debug entry is recorded in every unavailability case is false: the
non-Bun unavailability path records nothing. -/
theorem pty_selector_not_bun_silent :
    createPtyAdapter false (Except.ok ⟨"bun-pty"⟩)
      = Except.ok (none, ([] : List DebugEntry)) := rfl

/-- C3 amended: createPtyAdapter never lets an exception escape: outside
Bun it returns null and records no debug entry; inside Bun a successful
construction is returned; a failing construction is caught, recorded as a
single debug entry, and null is returned; in all cases the result is
ok. -/
theorem pty_selector_never_throws :
    (∀ construct, createPtyAdapter false construct = Except.ok (none, []))
    ∧ (∀ adapter, createPtyAdapter true (Except.ok adapter)
        = Except.ok (some adapter, []))
    ∧ (∀ e, createPtyAdapter true (Except.error e)
        = Except.ok (none, [⟨"Failed to create bun-pty adapter:", e⟩]))
    ∧ (∀ isBun construct, ∃ result,
        createPtyAdapter isBun construct = Except.ok result) := by
  refine ⟨fun construct => rfl, fun adapter => rfl, fun e => rfl, ?_⟩
  intro isBun construct
  cases isBun with
  | false => exact ⟨(none, []), rfl⟩
  | true =>
      cases construct with
      | ok adapter => exact ⟨(some adapter, []), rfl⟩
      | error e =>
          exact ⟨(none, [⟨"Failed to create bun-pty adapter:", e⟩]), rfl⟩

/-- C7 counterexample: spawning with handleFlowControl enabled does not
convey the flag to the underlying backend: the options object passed to
the bun-pty spawn call has no handleFlowControl key at all. -/
theorem flow_control_dropped :
    ({ handleFlowControl := some true } : PtySpawnOptions).handleFlowControl
      = some true
    ∧ (bunPtySpawnCallOptions { handleFlowControl := some true }).lookup
        "handleFlowControl" = none := by
  constructor <;> rfl

/-- C7 amended: the handleFlowControl option is accepted in
PtySpawnOptions but never conveyed to the backend: for every options
value, the object handed to the bun-pty spawn call carries exactly the
keys name, cols, rows, cwd and env, and no handleFlowControl entry, so no
XON/XOFF flow-control request reaches the backend at spawn time. -/
theorem flow_control_not_conveyed (options : PtySpawnOptions) :
    (bunPtySpawnCallOptions options).map Prod.fst
      = ["name", "cols", "rows", "cwd", "env"]
    ∧ (bunPtySpawnCallOptions options).lookup "handleFlowControl" = none :=
  ⟨rfl, rfl⟩

/-- C8 counterexample: when the underlying bun-pty exit event carries a
termination signal (here signal 9 with exit code 137), the event handed to
a registered onExit callback still has no signal: the wrapper forwards the
exit code alone. -/
theorem onexit_signal_dropped :
    onExitCallbackArg ⟨137, some 9⟩ = ⟨137, none⟩
    ∧ onExitCallbackArg ⟨137, some 9⟩ ≠ ⟨137, some 9⟩ := by
  constructor
  · rfl
  · decide

/-- C8 amended: every registered onExit callback is invoked with the exit
code of the underlying exit event, and with no termination signal, even
when the underlying event carries one. -/
theorem onexit_code_forwarded_signal_absent (e : ExitEvent) :
    (onExitCallbackArg e).exitCode = e.exitCode
    ∧ (onExitCallbackArg e).signal = none :=
  ⟨rfl, rfl⟩

/-- C9 counterexample: a caller-specified kill signal (here SIGKILL) does
not reach the underlying backend: the wrapper always invokes the backend
kill with no signal argument. -/
theorem kill_signal_dropped :
    wrappedKill (some "SIGKILL") ≠ BunPtyCall.kill (some "SIGKILL")
    ∧ wrappedKill (some "SIGKILL") = BunPtyCall.kill none := by
  constructor
  · decide
  · rfl

/-- C9 amended: PtyInstance.kill ignores any caller-specified signal and
always requests termination from the backend with no explicit signal, so
the backend default is used in every case. -/
theorem kill_ignores_caller_signal (signal : Option String) :
    wrappedKill signal = BunPtyCall.kill none := rfl

end GeminiCli
